import Mathlib

/-!
Verification of the crank-driven voice-note widget.

Shallow embedding of the interaction logic of the script: a draggable
rotary crank drives audio playback (play/pause, rate, volume), a bar
visualizer and a photo slideshow.

The numeric state of the script is embedded generically over a linear
ordered field `α`; theorems instantiate `α := ℚ` where the behaviour is
pure rational arithmetic and `α := ℝ` (with `Real.pi` for `Math.PI`)
where the angle-seam normalization is involved.
-/

variable {α : Type} [LinearOrderedField α]

/-- Drag / rotation state of the crank:
`isDragging`, `currentAngle`, `lastMouseAngle`, `velocity`. -/
structure CrankState (α : Type) where
  isDragging : Bool
  currentAngle : α
  lastMouseAngle : α
  velocity : α
  deriving Repr, DecidableEq

/-- Delta normalization in `moveDrag`:
`if (delta > Math.PI) delta -= Math.PI * 2; if (delta < -Math.PI) delta += Math.PI * 2;`
(`pi` stands for `Math.PI`). -/
def normalizeDelta (pi delta : α) : α :=
  let d1 := if delta > pi then delta - pi * 2 else delta
  if d1 < -pi then d1 + pi * 2 else d1

/-- Handler `moveDrag(e)`: no-op unless dragging; otherwise normalize the delta
to the new pointer angle, accumulate it, set `velocity = delta * 5`, store the
angle. -/
def moveDrag (pi : α) (s : CrankState α) (angle : α) : CrankState α :=
  if s.isDragging = false then s
  else
    let delta := normalizeDelta pi (angle - s.lastMouseAngle)
    { s with
      currentAngle := s.currentAngle + delta
      velocity := delta * 5
      lastMouseAngle := angle }

/-- Handler `startDrag`: sets `isDragging = true` and stores the pointer angle. -/
def startDrag (s : CrankState α) (angle : α) : CrankState α :=
  { s with isDragging := true, lastMouseAngle := angle }

/-- Handler `endDrag`: clears the dragging flag. -/
def endDrag (s : CrankState α) : CrankState α :=
  { s with isDragging := false }

/-- The per-frame physics step of `loop`:
when not dragging, `velocity *= FRICTION` (0.95) then `currentAngle += velocity`;
in all cases, if `|velocity| < 0.001` force `velocity = 0`. -/
def frameStep (s : CrankState α) : CrankState α :=
  let s1 :=
    if s.isDragging = false then
      { s with
        velocity := s.velocity * (95 / 100)
        currentAngle := s.currentAngle + s.velocity * (95 / 100) }
    else s
  if |s1.velocity| < 1 / 1000 then { s1 with velocity := 0 } else s1

/-- The audio element's state as far as the loop touches it. -/
structure AudioState (α : Type) where
  paused : Bool
  playbackRate : α
  volume : α
  deriving Repr, DecidableEq

/-- Result of the `audio.play()` promise: resolves, or rejects
(e.g. autoplay denied before a user gesture). -/
inductive PlayOutcome where
  | resolved
  | rejected
  deriving Repr, DecidableEq

/-- The raw `audio.play()` promise. -/
def playPromise (outcome : PlayOutcome) : Except String Unit :=
  match outcome with
  | .resolved => .ok ()
  | .rejected => .error "NotAllowedError"

/-- The handler `p.catch(e => { /* Ignore auto-play errors until interaction */ })`:
a rejection is swallowed. -/
def catchPromise (p : Except String Unit) : Except String Unit :=
  match p with
  | .ok u => .ok u
  | .error _ => .ok ()

/-- The command the loop issues to the transport on a frame, as a function of
speed and the transport's paused flag: `play` when `speed > 0.02 && paused`,
`pause` when `speed <= 0.02 && !paused`, nothing otherwise. -/
inductive TransportCmd where
  | play
  | pause
  deriving Repr, DecidableEq

def transportCmd (speed : α) (paused : Bool) : Option TransportCmd :=
  if speed > 1 / 50 then
    if paused then some .play else none
  else
    if paused = false then some .pause else none

/-- The audio logic of `loop` (lines guarded by `speed > 0.02`):
try to play when paused (rejection swallowed by the `.catch`), set
`playbackRate = clamp(0.5 + speed*3, 0.8, 1.5)` and
`volume = min(1, speed*5)`; otherwise pause when playing. -/
def audioStep (outcome : PlayOutcome) (speed : α) (a : AudioState α) : AudioState α :=
  if speed > 1 / 50 then
    let a1 :=
      if a.paused then
        match playPromise outcome with
        | .ok _ => { a with paused := false }
        | .error _ => a
      else a
    let rate0 := 1 / 2 + speed * 3
    let rate1 := if rate0 > 3 / 2 then (3 : α) / 2 else rate0
    let rate2 := if rate1 < 4 / 5 then (4 : α) / 5 else rate1
    { a1 with playbackRate := rate2, volume := min 1 (speed * 5) }
  else
    if a.paused = false then { a with paused := true } else a

/-- Raw bar height before clamping, for bar `i` of `drawVisualizer`:
with a live analyser (`live = true`) the byte magnitude is halved and used
only while `speed > 0.01`, else the startup `pseudoWaveform` value; without
an analyser the pseudo value is jittered by `(rand - 0.5) * (speed * 50)`
whenever `speed > 0.02`. -/
def barRaw (live : Bool) (pseudo freqByte rand speed : α) : α :=
  if live then
    if speed > 1 / 100 then freqByte / 2 else pseudo
  else
    if speed > 1 / 50 then pseudo + (rand - 1 / 2) * (speed * 50) else pseudo

/-- Final clamping of a bar height:
`if (barHeight < 4) barHeight = 4; if (barHeight > canvas.height) barHeight = canvas.height;`. -/
def clampBar (surfaceHeight barHeight : α) : α :=
  let b1 := if barHeight < 4 then 4 else barHeight
  if b1 > surfaceHeight then surfaceHeight else b1

/-- Playback progress: `currentTime / duration` when the duration is a
known positive number, else 0. -/
def progressOf (currentTime duration : α) : α :=
  if duration > 0 then currentTime / duration else 0

/-- Slideshow state: the photos' `active` flags and `currentPhotoIndex`. -/
structure PhotoState where
  photos : List Bool
  currentPhotoIndex : ℕ
  deriving Repr, DecidableEq

/-- The slideshow index of `updatePhotos`:
`Math.floor(progress * photos.length)`, then clamped by
`if (index >= photos.length) index = photos.length - 1; if (index < 0) index = 0;`. -/
def photoIndex (n : ℕ) (progress : ℚ) : ℤ :=
  let i0 := ⌊progress * (n : ℚ)⌋
  let i1 := if i0 ≥ (n : ℤ) then (n : ℤ) - 1 else i0
  if i1 < 0 then 0 else i1

/-- The clamped index as a natural number (it is nonnegative by construction). -/
def photoIndexNat (n : ℕ) (progress : ℚ) : ℕ :=
  (photoIndex n progress).toNat

/-- Function `updatePhotos(progress)`: no-op with no photos; otherwise compute
the clamped index and, only if it changed, move the `active` flag from the old
index to the new one and store the new index. -/
def updatePhotos (progress : ℚ) (ps : PhotoState) : PhotoState :=
  if ps.photos.length = 0 then ps
  else
    let index := photoIndexNat ps.photos.length progress
    if index ≠ ps.currentPhotoIndex then
      { photos := (ps.photos.set ps.currentPhotoIndex false).set index true
        currentPhotoIndex := index }
    else ps

/-- Exactly the photo at position `i` carries the `active` flag. -/
def activeOnly (l : List Bool) (i : ℕ) : Prop :=
  i < l.length ∧ ∀ j : Fin l.length, l.get j = decide (j.val = i)

/-- Whole-page state touched by one frame of `loop`: the crank physics state,
the audio transport, the element's read-only `currentTime`/`duration`, and the
slideshow. -/
structure World where
  crank : CrankState ℚ
  audio : AudioState ℚ
  currentTime : ℚ
  duration : ℚ
  slideshow : PhotoState
  deriving Repr, DecidableEq

/-- One frame of `loop`: physics step (friction/epsilon clamp), audio logic on
`speed = |velocity|`, then `drawVisualizer` computes the progress and calls
`updatePhotos`. `outcome` is the result of the `audio.play()` promise when one
is issued this frame. -/
def loopStep (outcome : PlayOutcome) (w : World) : World :=
  let crank1 := frameStep w.crank
  let speed := |crank1.velocity|
  let audio1 := audioStep outcome speed w.audio
  let progress := progressOf w.currentTime w.duration
  let slideshow1 := updatePhotos progress w.slideshow
  { crank := crank1
    audio := audio1
    currentTime := w.currentTime
    duration := w.duration
    slideshow := slideshow1 }

/-- A delta already inside `[-π, π]` is left unchanged by the normalization. -/
lemma normalizeDelta_of_small (pi d : α) (h1 : -pi ≤ d) (h2 : d ≤ pi) :
    normalizeDelta pi d = d := by
  unfold normalizeDelta
  rw [if_neg (not_lt.mpr h2), if_neg (not_lt.mpr h1)]

/-- The frame step never changes the dragging flag. -/
lemma frameStep_isDragging (s : CrankState α) :
    (frameStep s).isDragging = s.isDragging := by
  unfold frameStep
  dsimp only
  split <;> split <;> rfl

/-- A state at rest stays at rest under the frame step. -/
lemma frameStep_velocity_zero (s : CrankState α) (h : s.velocity = 0) :
    (frameStep s).velocity = 0 := by
  unfold frameStep
  dsimp only
  split <;> split <;> simp_all

/-- Iterating the frame step from rest keeps the velocity at 0. -/
lemma frameStep_iterate_velocity_zero (s : CrankState α) (h : s.velocity = 0) :
    ∀ n : ℕ, (frameStep^[n] s).velocity = 0 := by
  intro n
  induction n generalizing s with
  | zero => simpa using h
  | succ m ih =>
    rw [Function.iterate_succ_apply]
    exact ih _ (frameStep_velocity_zero s h)

/-- The frame step on a non-dragging state, written as a single conditional. -/
lemma frameStep_not_dragging (s : CrankState ℚ) (hd : s.isDragging = false) :
    frameStep s =
      if |s.velocity * (95 / 100)| < 1 / 1000 then
        ⟨s.isDragging, s.currentAngle + s.velocity * (95 / 100), s.lastMouseAngle, 0⟩
      else
        ⟨s.isDragging, s.currentAngle + s.velocity * (95 / 100), s.lastMouseAngle,
          s.velocity * (95 / 100)⟩ := by
  unfold frameStep
  dsimp only
  rw [if_pos hd]

/-- C2: while not dragging, a frame multiplies the velocity by 0.95, adds the
(new) velocity to the cumulative angle, clamps the velocity to exactly 0 when
its magnitude is below 0.001; the magnitude strictly decreases whenever it is
nonzero, and once below 0.001 the velocity is 0 on every later frame. -/
theorem frameStep_friction_decay (s : CrankState ℚ) (hd : s.isDragging = false) :
    (frameStep s).currentAngle = s.currentAngle + s.velocity * (95 / 100)
    ∧ (frameStep s).velocity =
        (if |s.velocity * (95 / 100)| < 1 / 1000 then 0 else s.velocity * (95 / 100))
    ∧ (s.velocity ≠ 0 → |(frameStep s).velocity| < |s.velocity|)
    ∧ (|s.velocity| < 1 / 1000 → ∀ n : ℕ, 1 ≤ n → (frameStep^[n] s).velocity = 0) := by
  have habs : |s.velocity * (95 / 100)| = |s.velocity| * (95 / 100) := by
    rw [abs_mul, abs_of_pos (by norm_num : (0 : ℚ) < 95 / 100)]
  refine ⟨?_, ?_, ?_, ?_⟩
  · rw [frameStep_not_dragging s hd]; split <;> rfl
  · rw [frameStep_not_dragging s hd]; split <;> simp_all
  · intro hv
    have hpos : 0 < |s.velocity| := abs_pos.mpr hv
    rw [frameStep_not_dragging s hd]
    split
    · simpa using hpos
    · show |s.velocity * (95 / 100)| < |s.velocity|
      rw [habs]; nlinarith
  · intro hsmall n hn
    obtain ⟨m, rfl⟩ : ∃ m, n = m + 1 := ⟨n - 1, by omega⟩
    rw [Function.iterate_succ_apply]
    apply frameStep_iterate_velocity_zero
    rw [frameStep_not_dragging s hd, if_pos]
    rw [habs]
    nlinarith [abs_nonneg s.velocity]

/-- Witness for C2 at a concrete state: `velocity = 1/2` decays to `19/40`
with the angle advanced by the decayed velocity, and a velocity of `1/2000`
is clamped to exactly 0 and stays 0 over later frames. -/
theorem frameStep_friction_decay_witness :
    (frameStep (⟨false, 0, 0, 1 / 2⟩ : CrankState ℚ)).currentAngle = 0 + (1 / 2) * (95 / 100)
    ∧ (frameStep (⟨false, 0, 0, 1 / 2⟩ : CrankState ℚ)).velocity = 19 / 40
    ∧ (frameStep^[3] (⟨false, 0, 0, 1 / 2000⟩ : CrankState ℚ)).velocity = 0 := by
  have h1 := frameStep_friction_decay (⟨false, 0, 0, 1 / 2⟩ : CrankState ℚ) rfl
  have h2 := frameStep_friction_decay (⟨false, 0, 0, 1 / 2000⟩ : CrankState ℚ) rfl
  refine ⟨h1.1, ?_, h2.2.2.2 (by norm_num [abs_lt]) 3 (by norm_num)⟩
  rw [h1.2.1]
  norm_num [abs_lt]

/-- C3: on a frame with `speed > 0.02`, the playback rate applied equals
`clamp(0.5 + speed*3, 0.8, 1.5)` and lies in `[0.8, 1.5]`, and the volume
applied equals `min 1 (speed*5)` and lies in `[0, 1]`. -/
theorem audioStep_rate_volume (outcome : PlayOutcome) (speed : ℚ) (a : AudioState ℚ)
    (h0 : 0 ≤ speed) (hs : 1 / 50 < speed) :
    (audioStep outcome speed a).playbackRate
        = max (4 / 5) (min (3 / 2) (1 / 2 + speed * 3))
    ∧ (audioStep outcome speed a).playbackRate ∈ Set.Icc (4 / 5 : ℚ) (3 / 2)
    ∧ (audioStep outcome speed a).volume = min 1 (speed * 5)
    ∧ (audioStep outcome speed a).volume ∈ Set.Icc (0 : ℚ) 1 := by
  have hrate : (audioStep outcome speed a).playbackRate
      = max (4 / 5) (min (3 / 2) (1 / 2 + speed * 3)) := by
    unfold audioStep
    rw [if_pos hs]
    dsimp only
    simp only [max_def, min_def]
    split_ifs <;> first | rfl | linarith
  have hvol : (audioStep outcome speed a).volume = min 1 (speed * 5) := by
    unfold audioStep
    rw [if_pos hs]
  refine ⟨hrate, ?_, hvol, ?_⟩
  · rw [hrate]
    exact ⟨le_max_left _ _, max_le (by norm_num) (min_le_left _ _)⟩
  · rw [hvol]
    exact ⟨le_min (by norm_num) (by nlinarith), min_le_left _ _⟩

/-- Witness for C3: `speed = 0.3` yields playback rate `1.4` and volume `1`. -/
theorem audioStep_rate_volume_witness :
    (audioStep .resolved (3 / 10) (⟨true, 1, 1⟩ : AudioState ℚ)).playbackRate = 7 / 5
    ∧ (audioStep .resolved (3 / 10) (⟨true, 1, 1⟩ : AudioState ℚ)).volume = 1 := by
  have h := audioStep_rate_volume .resolved (3 / 10) (⟨true, 1, 1⟩ : AudioState ℚ)
    (by norm_num) (by norm_num)
  constructor
  · rw [h.1]; norm_num [max_def, min_def]
  · rw [h.2.2.1]; norm_num [min_def]

/-- With the transport paused, the loop issues `play` exactly above the
threshold. -/
lemma transportCmd_of_paused (speed : ℚ) :
    transportCmd speed true = (if 1 / 50 < speed then some TransportCmd.play else none) := by
  unfold transportCmd
  by_cases hc : (1 : ℚ) / 50 < speed
  · rw [if_pos hc, if_pos hc]
    rfl
  · rw [if_neg hc, if_neg hc]
    rfl

/-- With the transport playing, the loop issues `pause` exactly at or below
the threshold. -/
lemma transportCmd_of_playing (speed : ℚ) :
    transportCmd speed false = (if 1 / 50 < speed then none else some TransportCmd.pause) := by
  unfold transportCmd
  by_cases hc : (1 : ℚ) / 50 < speed
  · rw [if_pos hc, if_pos hc]
    rfl
  · rw [if_neg hc, if_neg hc]
    rfl

/-- After the audio logic with a resolved play promise, the transport is
paused exactly when the speed is at or below the 0.02 threshold. -/
lemma audioStep_resolved_paused (speed : ℚ) (a : AudioState ℚ) :
    (audioStep .resolved speed a).paused = !decide ((1 : ℚ) / 50 < speed) := by
  unfold audioStep playPromise
  by_cases hc : (1 : ℚ) / 50 < speed
  · rw [if_pos hc, decide_eq_true hc]
    cases ha : a.paused <;> simp [ha]
  · rw [if_neg hc, decide_eq_false hc]
    cases ha : a.paused <;> simp [ha]

/-- C8: the playback controller is a two-state machine on a single threshold
with no hysteresis: with the transport paused it issues `play` exactly when
`speed > 0.02`, with it playing it issues `pause` exactly when `speed ≤ 0.02`;
after a (successful) controller step the transport is playing iff
`speed > 0.02`, a second step issues no command and leaves the state fixed. -/
theorem transport_two_state_machine (speed : ℚ) (a : AudioState ℚ) :
    transportCmd speed true = (if 1 / 50 < speed then some TransportCmd.play else none)
    ∧ transportCmd speed false = (if 1 / 50 < speed then none else some TransportCmd.pause)
    ∧ ((audioStep .resolved speed a).paused = false ↔ 1 / 50 < speed)
    ∧ transportCmd speed (audioStep .resolved speed a).paused = none
    ∧ (audioStep .resolved speed (audioStep .resolved speed a)).paused
        = (audioStep .resolved speed a).paused := by
  refine ⟨transportCmd_of_paused speed, transportCmd_of_playing speed, ?_, ?_, ?_⟩
  · rw [audioStep_resolved_paused]
    by_cases hc : (1 : ℚ) / 50 < speed
    · rw [decide_eq_true hc]
      simpa using hc
    · rw [decide_eq_false hc]
      simpa using not_lt.mp hc
  · rw [audioStep_resolved_paused]
    by_cases hc : (1 : ℚ) / 50 < speed
    · rw [decide_eq_true hc, Bool.not_true, transportCmd_of_playing, if_pos hc]
    · rw [decide_eq_false hc, Bool.not_false, transportCmd_of_paused, if_neg hc]
  · rw [audioStep_resolved_paused, audioStep_resolved_paused]

/-- Whatever the progress, the clamped slideshow index is inside
`[0, photoCount - 1]` as soon as there is a photo. -/
lemma photoIndex_bounds (n : ℕ) (hn : 1 ≤ n) (p : ℚ) :
    0 ≤ photoIndex n p ∧ photoIndex n p ≤ (n : ℤ) - 1 := by
  unfold photoIndex
  dsimp only
  split_ifs <;> omega

/-- The clamped slideshow index, as a natural number, is a valid position. -/
lemma photoIndexNat_lt (n : ℕ) (hn : 1 ≤ n) (p : ℚ) : photoIndexNat n p < n := by
  unfold photoIndexNat
  have h := photoIndex_bounds n hn p
  omega

/-- C5: for progress in `[0, 1]` and at least one photo, the slideshow index
equals `⌊progress * photoCount⌋` clamped into `[0, photoCount - 1]`, and the
update is a complete no-op when there are no photos. -/
theorem photoIndex_floor_clamped (n : ℕ) (p : ℚ) (hn : 1 ≤ n)
    (h0 : 0 ≤ p) (h1 : p ≤ 1) :
    photoIndex n p = max 0 (min ⌊p * (n : ℚ)⌋ ((n : ℤ) - 1))
    ∧ photoIndex n p ∈ Set.Icc (0 : ℤ) ((n : ℤ) - 1)
    ∧ (∀ ps : PhotoState, ps.photos.length = 0 → ∀ q : ℚ, updatePhotos q ps = ps) := by
  refine ⟨?_, ?_, ?_⟩
  · unfold photoIndex
    dsimp only
    simp only [max_def, min_def]
    split_ifs <;> omega
  · have h := photoIndex_bounds n hn p
    exact ⟨h.1, h.2⟩
  · intro ps hlen q
    unfold updatePhotos
    rw [if_pos hlen]

/-- Witness for C5: progress `0.5` with 4 photos gives active index 2, and
the update with an empty photo list is the identity. -/
theorem photoIndex_floor_clamped_witness :
    photoIndex 4 (1 / 2) = 2 ∧ photoIndexNat 4 (1 / 2) = 2
    ∧ updatePhotos (1 / 2) ⟨[], 0⟩ = ⟨[], 0⟩ := by
  have h := photoIndex_floor_clamped 4 (1 / 2) (by norm_num) (by norm_num) (by norm_num)
  have hfloor : ⌊(1 / 2 : ℚ) * ((4 : ℕ) : ℚ)⌋ = 2 := by norm_num
  have h4 : photoIndex 4 (1 / 2) = 2 := by
    rw [h.1, hfloor]
    rfl
  refine ⟨h4, ?_, h.2.2 ⟨[], 0⟩ rfl (1 / 2)⟩
  unfold photoIndexNat
  rw [h4]
  rfl

/-- The branch structure of `updatePhotos` when photos exist. -/
lemma updatePhotos_of_ne_empty (ps : PhotoState) (p : ℚ)
    (hne : ¬ ps.photos.length = 0) :
    updatePhotos p ps =
      if photoIndexNat ps.photos.length p ≠ ps.currentPhotoIndex then
        { photos := (ps.photos.set ps.currentPhotoIndex false).set
            (photoIndexNat ps.photos.length p) true
          currentPhotoIndex := photoIndexNat ps.photos.length p }
      else ps := by
  unfold updatePhotos
  rw [if_neg hne]

/-- C6: if exactly the photo at the stored index is active, then after any
slideshow update exactly the photo at the (new) stored index is active; and
when the computed index equals the stored one, the state does not change at
all. -/
theorem updatePhotos_preserves_activeOnly (ps : PhotoState) (p : ℚ)
    (h : activeOnly ps.photos ps.currentPhotoIndex) :
    activeOnly (updatePhotos p ps).photos (updatePhotos p ps).currentPhotoIndex
    ∧ (photoIndexNat ps.photos.length p = ps.currentPhotoIndex →
        updatePhotos p ps = ps) := by
  obtain ⟨hlt, hget⟩ := h
  have hn : 1 ≤ ps.photos.length := by omega
  have hne : ¬ ps.photos.length = 0 := by omega
  have hklt : photoIndexNat ps.photos.length p < ps.photos.length :=
    photoIndexNat_lt _ hn p
  rw [updatePhotos_of_ne_empty ps p hne]
  by_cases heq : photoIndexNat ps.photos.length p = ps.currentPhotoIndex
  · rw [if_neg (not_not_intro heq)]
    exact ⟨⟨hlt, hget⟩, fun _ => rfl⟩
  · rw [if_pos heq]
    refine ⟨⟨?_, ?_⟩, fun hcontra => absurd hcontra heq⟩
    · simpa using hklt
    · intro j
      have hjlen : j.val < ps.photos.length := by simpa using j.isLt
      rw [List.get_eq_getElem]
      dsimp only
      rw [List.getElem_set, List.getElem_set]
      by_cases hjk : photoIndexNat ps.photos.length p = j.val
      · rw [if_pos hjk]
        exact (decide_eq_true hjk.symm).symm
      · rw [if_neg hjk]
        by_cases hjc : ps.currentPhotoIndex = j.val
        · rw [if_pos hjc]
          exact (decide_eq_false fun hk => hjk hk.symm).symm
        · rw [if_neg hjc]
          have hgj := hget ⟨j.val, hjlen⟩
          rw [List.get_eq_getElem] at hgj
          rw [hgj]
          simp only [decide_eq_decide]
          omega

/-- Witness for C6 at a concrete state: four photos with the first active,
progress `0.5` moves the single active flag to index 2. -/
theorem updatePhotos_preserves_activeOnly_witness :
    activeOnly
      (updatePhotos (1 / 2) ⟨[true, false, false, false], 0⟩).photos
      (updatePhotos (1 / 2) ⟨[true, false, false, false], 0⟩).currentPhotoIndex :=
  (updatePhotos_preserves_activeOnly ⟨[true, false, false, false], 0⟩ (1 / 2)
    (by constructor <;> decide)).1

/-- Counterexample to C7 as stated: on a frame whose canvas height is 2, the
simulated baseline value 50 at speed 0 is drawn with height 2, which does not
lie in `[4, surfaceHeight] = [4, 2]`. -/
theorem clampBar_counterexample :
    clampBar (2 : ℚ) (barRaw false 50 0 0 0) = 2
    ∧ clampBar (2 : ℚ) (barRaw false 50 0 0 0) ∉ Set.Icc (4 : ℚ) 2 := by
  constructor
  · norm_num [clampBar, barRaw]
  · norm_num [clampBar, barRaw, Set.mem_Icc]

/-- C7 (amended): whenever the canvas height is at least 4, every drawn bar
height — from the live frequency source or from the simulated baseline, at
any speed and jitter — lies in `[4, surfaceHeight]`. -/
theorem clampBar_mem_Icc (live : Bool) (pseudo freqByte rand speed surfaceHeight : ℚ)
    (hh : 4 ≤ surfaceHeight) :
    clampBar surfaceHeight (barRaw live pseudo freqByte rand speed) ∈
      Set.Icc (4 : ℚ) surfaceHeight := by
  unfold clampBar
  dsimp only
  split_ifs <;> rw [Set.mem_Icc] <;> constructor <;> linarith

/-- Witness for C7: a baseline bar of 50 on a canvas of height 100 is drawn
with height 50, inside `[4, 100]`. -/
theorem clampBar_mem_Icc_witness :
    clampBar (100 : ℚ) (barRaw false 50 0 0 0) ∈ Set.Icc (4 : ℚ) 100
    ∧ clampBar (100 : ℚ) (barRaw false 50 0 0 0) = 50 := by
  refine ⟨clampBar_mem_Icc false 50 0 0 0 100 (by norm_num), ?_⟩
  norm_num [clampBar, barRaw]

/-- The frame's crank update does not depend on the play promise. -/
lemma loopStep_crank (o : PlayOutcome) (w : World) :
    (loopStep o w).crank = frameStep w.crank := rfl

/-- The frame's slideshow update does not depend on the play promise. -/
lemma loopStep_slideshow (o : PlayOutcome) (w : World) :
    (loopStep o w).slideshow =
      updatePhotos (progressOf w.currentTime w.duration) w.slideshow := rfl

/-- The frame's audio update in terms of the component step. -/
lemma loopStep_audio (o : PlayOutcome) (w : World) :
    (loopStep o w).audio =
      audioStep o |(frameStep w.crank).velocity| w.audio := rfl

/-- A rejected play leaves a paused transport paused. -/
lemma audioStep_rejected_paused (speed : ℚ) (a : AudioState ℚ) (hp : a.paused = true) :
    (audioStep .rejected speed a).paused = true := by
  unfold audioStep playPromise
  by_cases hc : (1 : ℚ) / 50 < speed
  · rw [if_pos hc]
    simp [hp]
  · rw [if_neg hc]
    simp [hp]

/-- The rate and volume written by the audio logic do not depend on the play
promise's outcome. -/
lemma audioStep_outcome_invariant (o1 o2 : PlayOutcome) (speed : ℚ) (a : AudioState ℚ) :
    (audioStep o1 speed a).playbackRate = (audioStep o2 speed a).playbackRate
    ∧ (audioStep o1 speed a).volume = (audioStep o2 speed a).volume := by
  unfold audioStep playPromise
  by_cases hc : (1 : ℚ) / 50 < speed
  · rw [if_pos hc, if_pos hc]
    cases ha : a.paused <;> cases o1 <;> cases o2 <;> simp [ha]
  · rw [if_neg hc, if_neg hc]
    cases ha : a.paused <;> simp [ha]

/-- C9: a rejected `audio.play()` is caught and discarded inside the frame —
the catch handler turns the rejection into a resolved no-op, the crank,
slideshow, playback rate and volume updates of the frame are exactly those of
a frame whose play resolved, the transport merely stays paused, and any later
frame whose speed exceeds the threshold issues `play` again. -/
theorem playRejection_swallowed (w : World)
    (hs : 1 / 50 < |(frameStep w.crank).velocity|)
    (hp : w.audio.paused = true) :
    catchPromise (playPromise .rejected) = Except.ok ()
    ∧ (loopStep .rejected w).crank = (loopStep .resolved w).crank
    ∧ (loopStep .rejected w).slideshow = (loopStep .resolved w).slideshow
    ∧ (loopStep .rejected w).audio.playbackRate = (loopStep .resolved w).audio.playbackRate
    ∧ (loopStep .rejected w).audio.volume = (loopStep .resolved w).audio.volume
    ∧ (loopStep .rejected w).audio.paused = true
    ∧ (∀ speed2 : ℚ, 1 / 50 < speed2 →
        transportCmd speed2 (loopStep .rejected w).audio.paused = some TransportCmd.play) := by
  have hinv := audioStep_outcome_invariant .rejected .resolved
    |(frameStep w.crank).velocity| w.audio
  have hpz : (loopStep .rejected w).audio.paused = true := by
    rw [loopStep_audio]
    exact audioStep_rejected_paused _ _ hp
  refine ⟨rfl, rfl, rfl, ?_, ?_, hpz, ?_⟩
  · rw [loopStep_audio, loopStep_audio]
    exact hinv.1
  · rw [loopStep_audio, loopStep_audio]
    exact hinv.2
  · intro speed2 h2
    rw [hpz, transportCmd_of_paused, if_pos h2]

/-- Witness for C9 at a concrete world: a paused transport, speed above the
threshold, play rejected — rate and volume still get set as if play had
resolved, the transport stays paused, and a later fast frame retries play. -/
theorem playRejection_swallowed_witness :
    catchPromise (playPromise .rejected) = Except.ok ()
    ∧ (loopStep .rejected ⟨⟨true, 0, 0, 1 / 10⟩, ⟨true, 1, 1⟩, 0, 10, ⟨[], 0⟩⟩).audio.paused
        = true
    ∧ (loopStep .rejected ⟨⟨true, 0, 0, 1 / 10⟩, ⟨true, 1, 1⟩, 0, 10, ⟨[], 0⟩⟩).audio.volume
        = (loopStep .resolved ⟨⟨true, 0, 0, 1 / 10⟩, ⟨true, 1, 1⟩, 0, 10, ⟨[], 0⟩⟩).audio.volume := by
  have h := playRejection_swallowed ⟨⟨true, 0, 0, 1 / 10⟩, ⟨true, 1, 1⟩, 0, 10, ⟨[], 0⟩⟩
    (by
      have hv : (frameStep (⟨true, 0, 0, 1 / 10⟩ : CrankState ℚ)).velocity = 1 / 10 := by
        norm_num [frameStep, abs_lt]
      rw [hv, abs_of_nonneg (by norm_num : (0 : ℚ) ≤ 1 / 10)]
      norm_num) rfl
  exact ⟨h.1, h.2.2.2.2.2.1, h.2.2.2.2.1⟩

/-- Counterexample to C1 as stated: `lastAngle = π` and `angle = 0` are both
legal angles in `(-π, π]`, the raw delta is exactly `-π`, and the
normalization leaves it at `-π`, which is outside `(-π, π]`. -/
theorem normalizeDelta_counterexample :
    Real.pi ∈ Set.Ioc (-Real.pi) Real.pi
    ∧ (0 : ℝ) ∈ Set.Ioc (-Real.pi) Real.pi
    ∧ normalizeDelta Real.pi ((0 : ℝ) - Real.pi) = -Real.pi
    ∧ normalizeDelta Real.pi ((0 : ℝ) - Real.pi) ∉ Set.Ioc (-Real.pi) Real.pi := by
  have hpi : 0 < Real.pi := Real.pi_pos
  have heval : normalizeDelta Real.pi ((0 : ℝ) - Real.pi) = -Real.pi := by
    unfold normalizeDelta
    dsimp only
    rw [zero_sub,
      if_neg (show ¬ (-Real.pi > Real.pi) from not_lt.mpr (by linarith)),
      if_neg (lt_irrefl (-Real.pi))]
  refine ⟨Set.mem_Ioc.mpr ⟨by linarith, le_refl _⟩,
    Set.mem_Ioc.mpr ⟨by linarith, by linarith⟩, heval, ?_⟩
  rw [heval]
  intro hmem
  exact absurd (Set.mem_Ioc.mp hmem).1 (lt_irrefl _)

/-- C1 (amended): for two angles in `(-π, π]`, the normalized delta adds or
subtracts `2π` at most once, lies in `[-π, π]`, and lies in `(-π, π]` except
in the boundary case where the raw delta is exactly `-π` (where it stays
`-π`). -/
theorem normalizeDelta_range (lastAngle angle : ℝ)
    (hl : lastAngle ∈ Set.Ioc (-Real.pi) Real.pi)
    (ha : angle ∈ Set.Ioc (-Real.pi) Real.pi) :
    normalizeDelta Real.pi (angle - lastAngle) ∈ Set.Icc (-Real.pi) Real.pi
    ∧ (normalizeDelta Real.pi (angle - lastAngle) = angle - lastAngle
       ∨ normalizeDelta Real.pi (angle - lastAngle) = angle - lastAngle - Real.pi * 2
       ∨ normalizeDelta Real.pi (angle - lastAngle) = angle - lastAngle + Real.pi * 2)
    ∧ (angle - lastAngle ≠ -Real.pi →
        normalizeDelta Real.pi (angle - lastAngle) ∈ Set.Ioc (-Real.pi) Real.pi) := by
  obtain ⟨hl1, hl2⟩ := hl
  obtain ⟨ha1, ha2⟩ := ha
  have hpi : 0 < Real.pi := Real.pi_pos
  unfold normalizeDelta
  dsimp only
  by_cases h1 : angle - lastAngle > Real.pi
  · rw [if_pos h1, if_neg (not_lt.mpr (by linarith))]
    exact ⟨Set.mem_Icc.mpr ⟨by linarith, by linarith⟩, Or.inr (Or.inl rfl),
      fun _ => Set.mem_Ioc.mpr ⟨by linarith, by linarith⟩⟩
  · rw [if_neg h1]
    push_neg at h1
    by_cases h2 : angle - lastAngle < -Real.pi
    · rw [if_pos h2]
      exact ⟨Set.mem_Icc.mpr ⟨by linarith, by linarith⟩, Or.inr (Or.inr rfl),
        fun _ => Set.mem_Ioc.mpr ⟨by linarith, by linarith⟩⟩
    · rw [if_neg h2]
      push_neg at h2
      exact ⟨Set.mem_Icc.mpr ⟨h2, h1⟩, Or.inl rfl,
        fun hne => Set.mem_Ioc.mpr ⟨lt_of_le_of_ne h2 (Ne.symm hne), h1⟩⟩

/-- Witness for C1 at the seam-crossing scenario `lastAngle = 3.1`,
`angle = -3.1`: the raw delta `-6.2` is normalized to `-6.2 + 2π`, a small
positive value strictly between `0.08` and `0.09`. -/
theorem normalizeDelta_range_witness :
    (31 : ℝ) / 10 ∈ Set.Ioc (-Real.pi) Real.pi
    ∧ (-31 : ℝ) / 10 ∈ Set.Ioc (-Real.pi) Real.pi
    ∧ normalizeDelta Real.pi ((-31 : ℝ) / 10 - 31 / 10) ∈ Set.Icc (-Real.pi) Real.pi
    ∧ normalizeDelta Real.pi ((-31 : ℝ) / 10 - 31 / 10) = -62 / 10 + Real.pi * 2
    ∧ (2 : ℝ) / 25 < normalizeDelta Real.pi ((-31 : ℝ) / 10 - 31 / 10)
    ∧ normalizeDelta Real.pi ((-31 : ℝ) / 10 - 31 / 10) < (9 : ℝ) / 100 := by
  have hg : (3.141592 : ℝ) < Real.pi := Real.pi_gt_d6
  have hlt : Real.pi < 3.141593 := Real.pi_lt_d6
  have hg' : (3141592 : ℝ) / 1000000 < Real.pi := by
    calc ((3141592 : ℝ) / 1000000) = 3.141592 := by norm_num
    _ < Real.pi := hg
  have hlt' : Real.pi < (3141593 : ℝ) / 1000000 := by
    calc Real.pi < (3.141593 : ℝ) := hlt
    _ = (3141593 : ℝ) / 1000000 := by norm_num
  have hml : (31 : ℝ) / 10 ∈ Set.Ioc (-Real.pi) Real.pi :=
    Set.mem_Ioc.mpr ⟨by linarith, by linarith⟩
  have hma : (-31 : ℝ) / 10 ∈ Set.Ioc (-Real.pi) Real.pi :=
    Set.mem_Ioc.mpr ⟨by linarith, by linarith⟩
  have heval : normalizeDelta Real.pi ((-31 : ℝ) / 10 - 31 / 10) = -62 / 10 + Real.pi * 2 := by
    unfold normalizeDelta
    dsimp only
    rw [if_neg (show ¬ ((-31 : ℝ) / 10 - 31 / 10 > Real.pi) from not_lt.mpr (by linarith)),
      if_pos (show (-31 : ℝ) / 10 - 31 / 10 < -Real.pi by linarith)]
    ring
  refine ⟨hml, hma, (normalizeDelta_range (31 / 10) (-31 / 10) hml hma).1, heval, ?_, ?_⟩
  · rw [heval]
    linarith
  · rw [heval]
    linarith

/-- The drag-move update while dragging, written as a record equation. -/
lemma moveDrag_dragging (s : CrankState ℝ) (angle : ℝ) (hd : s.isDragging = true) :
    moveDrag Real.pi s angle =
      { isDragging := true
        currentAngle := s.currentAngle + normalizeDelta Real.pi (angle - s.lastMouseAngle)
        lastMouseAngle := angle
        velocity := normalizeDelta Real.pi (angle - s.lastMouseAngle) * 5 } := by
  unfold moveDrag
  rw [if_neg (show ¬ (s.isDragging = false) by rw [hd]; simp)]
  dsimp only
  rw [hd]

/-- C4: every drag-move while dragging adds the normalized delta to the
cumulative angle, sets the velocity to exactly 5 times the normalized delta,
and stores the new pointer angle. -/
theorem moveDrag_update (s : CrankState ℝ) (angle : ℝ) (hd : s.isDragging = true) :
    moveDrag Real.pi s angle =
      { isDragging := true
        currentAngle := s.currentAngle + normalizeDelta Real.pi (angle - s.lastMouseAngle)
        lastMouseAngle := angle
        velocity := normalizeDelta Real.pi (angle - s.lastMouseAngle) * 5 } :=
  moveDrag_dragging s angle hd

/-- Witness for C4: the drag sequence with deltas `[+0.1, +0.1, +0.1]`
starting from rest ends with `cumulativeAngle = 0.3` and
`angularVelocity = 0.5`. -/
theorem moveDrag_update_witness :
    (moveDrag Real.pi (moveDrag Real.pi (moveDrag Real.pi
        (⟨true, 0, 0, 0⟩ : CrankState ℝ) (1 / 10)) (2 / 10)) (3 / 10)).currentAngle = 3 / 10
    ∧ (moveDrag Real.pi (moveDrag Real.pi (moveDrag Real.pi
        (⟨true, 0, 0, 0⟩ : CrankState ℝ) (1 / 10)) (2 / 10)) (3 / 10)).velocity = 1 / 2 := by
  have hpi3 : (3 : ℝ) < Real.pi := Real.pi_gt_three
  have h1 : moveDrag Real.pi (⟨true, 0, 0, 0⟩ : CrankState ℝ) (1 / 10)
      = ⟨true, 0 + 1 / 10, 1 / 10, (1 / 10) * 5⟩ := by
    rw [moveDrag_update _ _ rfl]
    rw [show (1 : ℝ) / 10 - 0 = 1 / 10 by ring]
    rw [normalizeDelta_of_small Real.pi (1 / 10) (by linarith) (by linarith)]
  have h2 : moveDrag Real.pi (⟨true, 0 + 1 / 10, 1 / 10, (1 / 10) * 5⟩ : CrankState ℝ) (2 / 10)
      = ⟨true, 0 + 1 / 10 + 1 / 10, 2 / 10, (1 / 10) * 5⟩ := by
    rw [moveDrag_update _ _ rfl]
    rw [show (2 : ℝ) / 10 - 1 / 10 = 1 / 10 by norm_num]
    rw [normalizeDelta_of_small Real.pi (1 / 10) (by linarith) (by linarith)]
  have h3 : moveDrag Real.pi
        (⟨true, 0 + 1 / 10 + 1 / 10, 2 / 10, (1 / 10) * 5⟩ : CrankState ℝ) (3 / 10)
      = ⟨true, 0 + 1 / 10 + 1 / 10 + 1 / 10, 3 / 10, (1 / 10) * 5⟩ := by
    rw [moveDrag_update _ _ rfl]
    rw [show (3 : ℝ) / 10 - 2 / 10 = 1 / 10 by norm_num]
    rw [normalizeDelta_of_small Real.pi (1 / 10) (by linarith) (by linarith)]
  rw [h1, h2, h3]
  constructor
  · show (0 : ℝ) + 1 / 10 + 1 / 10 + 1 / 10 = 3 / 10
    norm_num
  · show (1 : ℝ) / 10 * 5 = 1 / 2
    norm_num

/-- The frame step while dragging: the friction update is skipped but the
epsilon clamp on the velocity still applies. -/
lemma frameStep_dragging (s : CrankState ℝ) (hd : s.isDragging = true) :
    frameStep s =
      if |s.velocity| < 1 / 1000 then
        ⟨s.isDragging, s.currentAngle, s.lastMouseAngle, 0⟩
      else s := by
  unfold frameStep
  dsimp only
  rw [if_neg (show ¬ (s.isDragging = false) by rw [hd]; simp)]

/-- C10: the epsilon clamp is applied on every frame regardless of drag
state: while dragging, a velocity of magnitude below 0.001 is forced to 0 at
the frame step, so a drag-move whose normalized delta has magnitude below
0.0002 yields velocity exactly 0 — hence zero speed — at the next frame. -/
theorem epsilon_clamp_regardless_of_drag (s : CrankState ℝ) (angle : ℝ)
    (hd : s.isDragging = true)
    (hδ : |normalizeDelta Real.pi (angle - s.lastMouseAngle)| < 2 / 10000) :
    (|s.velocity| < 1 / 1000 → (frameStep s).velocity = 0)
    ∧ (frameStep (moveDrag Real.pi s angle)).velocity = 0
    ∧ |(frameStep (moveDrag Real.pi s angle)).velocity| = 0 := by
  have hsmall : |normalizeDelta Real.pi (angle - s.lastMouseAngle) * 5| < 1 / 1000 := by
    rw [abs_mul, abs_of_pos (by norm_num : (0 : ℝ) < 5)]
    linarith
  have h2 : (frameStep (moveDrag Real.pi s angle)).velocity = 0 := by
    rw [moveDrag_dragging s angle hd, frameStep_dragging _ rfl, if_pos hsmall]
  refine ⟨?_, h2, by rw [h2, abs_zero]⟩
  intro hv
  rw [frameStep_dragging s hd, if_pos hv]

/-- Witness for C10: while dragging with velocity `1/2000` and a drag-move of
delta `1/10000`, both the plain frame step and the frame step after the move
clamp the velocity to exactly 0. -/
theorem epsilon_clamp_regardless_of_drag_witness :
    (frameStep (moveDrag Real.pi (⟨true, 0, 0, 1 / 2000⟩ : CrankState ℝ)
        (1 / 10000))).velocity = 0
    ∧ (frameStep (⟨true, 0, 0, 1 / 2000⟩ : CrankState ℝ)).velocity = 0 := by
  have hpi3 : (3 : ℝ) < Real.pi := Real.pi_gt_three
  have h := epsilon_clamp_regardless_of_drag (⟨true, 0, 0, 1 / 2000⟩ : CrankState ℝ)
    (1 / 10000) rfl
    (by
      show |normalizeDelta Real.pi ((1 : ℝ) / 10000 - 0)| < 2 / 10000
      rw [show (1 : ℝ) / 10000 - 0 = 1 / 10000 by ring,
        normalizeDelta_of_small Real.pi (1 / 10000) (by linarith) (by linarith),
        abs_of_nonneg (by norm_num : (0 : ℝ) ≤ 1 / 10000)]
      norm_num)
  refine ⟨h.2.1, h.1 ?_⟩
  show |(1 : ℝ) / 2000| < 1 / 1000
  rw [abs_of_nonneg (by norm_num : (0 : ℝ) ≤ 1 / 2000)]
  norm_num
